import Mathlib

/-
Shallow embedding of the job-application form validator (script.js):
field validators, the resume file check, the submit handler with its
simulated delayed completion, and the dirty-flag navigation guard.
Strings are modelled as lists of characters; string length counts
characters; DOM side effects (error slots, preview visibility, button
state, status line) are modelled as explicit record fields.
-/

namespace JobForm

/-- Whitespace class used by the host `trim` and by `\s` in the email
regex: ASCII whitespace plus the Unicode space separators, the line
separators and the BOM. -/
def jsWhitespace (c : Char) : Bool :=
  c == ' ' || c == '\t' || c == '\n' || c == '\r' ||
  c == Char.ofNat 0x0b || c == Char.ofNat 0x0c ||
  c == Char.ofNat 0xa0 || c == Char.ofNat 0x1680 ||
  decide (0x2000 ≤ c.toNat ∧ c.toNat ≤ 0x200a) ||
  c == Char.ofNat 0x2028 || c == Char.ofNat 0x2029 ||
  c == Char.ofNat 0x202f || c == Char.ofNat 0x205f ||
  c == Char.ofNat 0x3000 || c == Char.ofNat 0xfeff

/-- The host String.prototype.trim: drop leading and trailing whitespace. -/
def jsTrim (l : List Char) : List Char :=
  ((l.dropWhile jsWhitespace).reverse.dropWhile jsWhitespace).reverse

/-- The host toLowerCase restricted to ASCII letters, which is all the
extension comparison ever distinguishes. -/
def jsToLower (c : Char) : Char :=
  if 'A' ≤ c ∧ c ≤ 'Z' then Char.ofNat (c.toNat + 32) else c

/-- Error kinds of validateName (lines 59-65): the two showError messages. -/
inductive NameError where
  | Required
  | TooShort
deriving DecidableEq, Repr

/-- Error kinds of validateEmail (lines 67-75). -/
inductive EmailError where
  | Required
  | InvalidFormat
deriving DecidableEq, Repr

/-- Error kind of validateCover (lines 77-83). -/
inductive CoverError where
  | TooShort
deriving DecidableEq, Repr

/-- Error kinds of validatePortfolio (lines 85-102). -/
inductive PortfolioError where
  | InvalidURL
  | DisallowedScheme
deriving DecidableEq, Repr

/-- Error kinds of validateResume (lines 104-140). -/
inductive ResumeError where
  | Required
  | TooLarge
  | InvalidType
deriving DecidableEq, Repr

/-- validateName (script.js lines 59-65): trim; empty is Required;
trimmed length below 2 is TooShort; otherwise success (error cleared).
`none` models a cleared error slot and a `true` return. -/
def validateName (v : String) : Option NameError :=
  let t := jsTrim v.data
  if t = [] then some .Required
  else if t.length < 2 then some .TooShort
  else none

/-- Character class `[^\s@]` of the email regex. -/
def atomChar (c : Char) : Bool :=
  !jsWhitespace c && !(c == '@')

/-- All ways of cutting a list in two: `(a, b)` is listed iff `a ++ b`
is the input. Used to express regex concatenation. -/
def splits : List Char → List (List Char × List Char)
  | [] => [([], [])]
  | c :: cs => ([], c :: cs) :: (splits cs).map (fun p => (c :: p.1, p.2))

/-- Matcher for the regex fragment `\.[^\s@]+$`. -/
def dotTail (l : List Char) : Bool :=
  match l with
  | x :: c => x == '.' && !c.isEmpty && c.all atomChar
  | [] => false

/-- Matcher for the regex fragment `[^\s@]+\.[^\s@]+$`. -/
def tailTest (l : List Char) : Bool :=
  (splits l).any fun p => !p.1.isEmpty && p.1.all atomChar && dotTail p.2

/-- Matcher for the regex fragment `@[^\s@]+\.[^\s@]+$`. -/
def atTail (l : List Char) : Bool :=
  match l with
  | x :: t => x == '@' && tailTest t
  | [] => false

/-- The email regex `/^[^\s@]+@[^\s@]+\.[^\s@]+$/` (script.js line 71):
anchored at both ends, so the whole input must decompose as the
concatenation; the matcher searches all decompositions. -/
def emailRegexTest (l : List Char) : Bool :=
  (splits l).any fun p => !p.1.isEmpty && p.1.all atomChar && atTail p.2

/-- The structural pattern the spec describes for the email check: one
or more non-whitespace non-at characters, a literal at sign, one or
more such characters, a literal dot, one or more such characters. -/
def EmailPat (l : List Char) : Prop :=
  ∃ a b c, l = a ++ '@' :: (b ++ '.' :: c) ∧
    a ≠ [] ∧ b ≠ [] ∧ c ≠ [] ∧
    a.all atomChar = true ∧ b.all atomChar = true ∧ c.all atomChar = true

/-- validateEmail (script.js lines 67-75): trim; empty is Required;
regex failure is InvalidFormat; otherwise success. -/
def validateEmail (v : String) : Option EmailError :=
  let t := jsTrim v.data
  if t = [] then some .Required
  else if emailRegexTest t then none
  else some .InvalidFormat

/-- validateCover (script.js lines 77-83): trim; empty succeeds
(optional field); trimmed length below 20 is TooShort; else success. -/
def validateCover (v : String) : Option CoverError :=
  let t := jsTrim v.data
  if t = [] then none
  else if t.length < 20 then some .TooShort
  else none

/-- Result of the host URL constructor: all the code reads is `.protocol`
(the lowercased scheme followed by a colon). -/
structure URLRec where
  protocol : String
deriving DecidableEq, Repr

/-- Modelled from the spec: the host WHATWG `new URL` constructor is not
part of the repository. Only what the code observes is modelled: parsing
succeeds when the input starts with a scheme (an ASCII letter followed by
letters, digits, plus, minus or dot) terminated by a colon, and then
`.protocol` is that scheme lowercased with the colon; otherwise parsing
throws, modelled as `none`. -/
def parseURL (s : String) : Option URLRec :=
  let l := s.data
  let pre := l.takeWhile (fun c => !(c == ':'))
  if l.contains ':' && !pre.isEmpty &&
      (match pre with
       | c :: _ => c.isAlpha
       | [] => false) &&
      pre.all (fun c => c.isAlphanum || c == '+' || c == '-' || c == '.') then
    some ⟨String.mk (pre.map jsToLower ++ [':'])⟩
  else none

/-- validatePortfolio (script.js lines 85-102): trim; empty succeeds
(optional); a URL-constructor throw is caught as InvalidURL; a parsed
URL whose protocol is not http or https is DisallowedScheme; else ok. -/
def validatePortfolio (v : String) : Option PortfolioError :=
  let t := jsTrim v.data
  if t = [] then none
  else
    match parseURL (String.mk t) with
    | some url =>
        if ["http:", "https:"].contains url.protocol then none
        else some .DisallowedScheme
    | none => some .InvalidURL

/-- Snapshot of the selected file: name, size in bytes and the declared
content-type, exactly the three fields the code reads. -/
structure FileDesc where
  name : String
  size : Nat
  type : String
deriving DecidableEq, Repr

/-- MAX_FILE_BYTES (script.js line 11). -/
def MAX_FILE_BYTES : Nat := 2 * 1024 * 1024

/-- ALLOWED_MIME (script.js lines 12-16). -/
def ALLOWED_MIME : List String :=
  ["application/pdf",
   "application/msword",
   "application/vnd.openxmlformats-officedocument.wordprocessingml.document"]

/-- ALLOWED_EXT (script.js line 18). -/
def ALLOWED_EXT : List String := ["pdf", "doc", "docx"]

/-- getExt (script.js lines 54-57): `filename.split('.')` yields more
than one part exactly when the name contains a dot, and `parts.pop()`
is then the substring after the last dot; it is lowercased. With no dot
the result is the empty string. -/
def getExt (filename : String) : String :=
  let l := filename.data
  if l.contains '.' then
    String.mk (((l.reverse.takeWhile (fun c => !(c == '.'))).reverse).map jsToLower)
  else ""

/-- Observable outcome of one validateResume run: the boolean return
value, the error slot and whether the preview line is hidden. -/
structure ResumeOutcome where
  ok : Bool
  err : Option ResumeError
  previewHidden : Bool
deriving DecidableEq, Repr

/-- validateResume (script.js lines 104-140): no file is Required; then
the size check against MAX_FILE_BYTES (strict greater-than); then the
type check, allowed when the content-type is in ALLOWED_MIME or the
extension is in ALLOWED_EXT; every failure hides the preview, success
shows it. -/
def validateResume (files : Option FileDesc) : ResumeOutcome :=
  match files with
  | none => ⟨false, some .Required, true⟩
  | some f =>
    if f.size > MAX_FILE_BYTES then ⟨false, some .TooLarge, true⟩
    else
      let mime := f.type
      let ext := getExt f.name
      let allowed := ALLOWED_MIME.contains mime || ALLOWED_EXT.contains ext
      if !allowed then ⟨false, some .InvalidType, true⟩
      else ⟨true, none, false⟩

/-- The five form field values as read by the validators at submit time;
`resumeFiles` is the selected file, `none` when no file is chosen. -/
structure FormFields where
  fullName : String
  email : String
  cover : String
  portfolio : String
  resumeFiles : Option FileDesc
deriving DecidableEq, Repr

/-- Color of the aggregate status line. -/
inductive StatusColor where
  | neutral
  | danger
  | success
deriving DecidableEq, Repr

/-- State visible after the submit handler returns (script.js lines
159-192): each field's error slot, the resume outcome, the submit
button, the status line and the pending setTimeout delay (if any). -/
structure SubmitOutcome where
  errName : Option NameError
  errEmail : Option EmailError
  errCover : Option CoverError
  errPortfolio : Option PortfolioError
  resumeOutcome : ResumeOutcome
  submitDisabled : Bool
  submitLabel : String
  statusText : String
  statusColor : StatusColor
  scheduledDelay : Option Nat
deriving DecidableEq, Repr

/-- The aggregate `allOk` of the submit handler (script.js line 172):
the logical AND of the five validator results. -/
def allOk (fs : FormFields) : Bool :=
  (validateName fs.fullName).isNone &&
  (validateEmail fs.email).isNone &&
  (validateCover fs.cover).isNone &&
  (validatePortfolio fs.portfolio).isNone &&
  (validateResume fs.resumeFiles).ok

/-- The submit handler (script.js lines 159-192): disables the button,
sets the in-progress label, runs all five validators, and either takes
the failure branch (button re-enabled, label restored, danger status,
nothing scheduled) or schedules the 800 ms completion, leaving the
button disabled with the in-progress label. -/
def submitHandler (fs : FormFields) : SubmitOutcome :=
  let rName := validateName fs.fullName
  let rEmail := validateEmail fs.email
  let rCover := validateCover fs.cover
  let rPortfolio := validatePortfolio fs.portfolio
  let rResume := validateResume fs.resumeFiles
  if allOk fs then
    { errName := rName, errEmail := rEmail, errCover := rCover,
      errPortfolio := rPortfolio, resumeOutcome := rResume,
      submitDisabled := true, submitLabel := "Checking...",
      statusText := "", statusColor := .neutral,
      scheduledDelay := some 800 }
  else
    { errName := rName, errEmail := rEmail, errCover := rCover,
      errPortfolio := rPortfolio, resumeOutcome := rResume,
      submitDisabled := false, submitLabel := "Submit application",
      statusText := "Please fix the highlighted errors.",
      statusColor := .danger,
      scheduledDelay := none }

/-- State after the scheduled completion fires. -/
structure CompletedState where
  submitDisabled : Bool
  submitLabel : String
  statusText : String
  statusColor : StatusColor
  fields : FormFields
  previewHidden : Bool
deriving DecidableEq, Repr

/-- The setTimeout callback (script.js lines 183-191): re-enables the
button, restores its label, shows the success status, resets the form
(all fields cleared, file selection dropped) and hides the preview. -/
def timeoutCallback : CompletedState :=
  { submitDisabled := false,
    submitLabel := "Submit application",
    statusText := "Application submitted successfully ✅",
    statusColor := .success,
    fields := ⟨"", "", "", "", none⟩,
    previewHidden := true }

/-- Kinds of in-page events relevant to the dirty flag (script.js lines
194-201): form input, the resume change listener, the clear-file click,
a submit attempt, and the firing of the success timeout (which performs
the form reset). -/
inductive PageEvent where
  | inputEvt
  | resumeChange
  | clearFileClick
  | submitEvt
  | timeoutFire
deriving DecidableEq, Repr

/-- Initial value of isDirty (script.js line 195). -/
def isDirtyInit : Bool := false

/-- Effect of each in-page event on isDirty: the input listener (line
196) sets it; no other listener ever writes it. -/
def dirtyStep (d : Bool) : PageEvent → Bool
  | .inputEvt => true
  | _ => d

/-- The beforeunload handler (script.js lines 197-201): it calls
preventDefault (requesting the confirmation prompt) exactly when
isDirty holds. -/
def beforeunloadPrevents (d : Bool) : Bool := d

/-! Helper lemmas about the regex matcher. -/

theorem mem_splits {l : List Char} {p : List Char × List Char} :
    p ∈ splits l ↔ p.1 ++ p.2 = l := by
  induction l generalizing p with
  | nil =>
    simp only [splits, List.mem_singleton]
    constructor
    · rintro rfl; rfl
    · intro h
      obtain ⟨a, b⟩ := p
      simp only [List.append_eq_nil] at h
      simp [h.1, h.2]
  | cons c cs ih =>
    simp only [splits, List.mem_cons, List.mem_map]
    constructor
    · rintro (rfl | ⟨q, hq, rfl⟩)
      · rfl
      · have hqe := ih.mp hq
        simpa using hqe
    · intro h
      obtain ⟨a, b⟩ := p
      cases a with
      | nil =>
        left
        simp only [List.nil_append] at h
        simp [h]
      | cons x xs =>
        right
        simp only [List.cons_append, List.cons.injEq] at h
        exact ⟨(xs, b), ih.mpr h.2, by simp [h.1]⟩

theorem dotTail_iff {l : List Char} :
    dotTail l = true ↔
      ∃ c, l = '.' :: c ∧ c ≠ [] ∧ c.all atomChar = true := by
  cases l with
  | nil => simp [dotTail]
  | cons x c =>
    simp only [dotTail, Bool.and_eq_true, beq_iff_eq, List.isEmpty_eq_false,
      Bool.not_eq_true', List.cons.injEq]
    constructor
    · rintro ⟨⟨hx, hc⟩, ha⟩
      exact ⟨c, ⟨hx, rfl⟩, hc, ha⟩
    · rintro ⟨c', ⟨hx, rfl⟩, hc, ha⟩
      exact ⟨⟨hx, hc⟩, ha⟩

theorem tailTest_iff {l : List Char} :
    tailTest l = true ↔
      ∃ b c, l = b ++ '.' :: c ∧ b ≠ [] ∧ c ≠ [] ∧
        b.all atomChar = true ∧ c.all atomChar = true := by
  constructor
  · intro h
    obtain ⟨p, hp, hpred⟩ := List.any_eq_true.mp h
    have hl := mem_splits.mp hp
    simp only [Bool.and_eq_true, List.isEmpty_eq_false, Bool.not_eq_true'] at hpred
    obtain ⟨⟨hne, hall⟩, hdot⟩ := hpred
    obtain ⟨c, hc, hcne, hcall⟩ := dotTail_iff.mp hdot
    exact ⟨p.1, c, by rw [← hl, hc], hne, hcne, hall, hcall⟩
  · rintro ⟨b, c, rfl, hb, hc, hba, hca⟩
    refine List.any_eq_true.mpr ⟨(b, '.' :: c), mem_splits.mpr rfl, ?_⟩
    simp [dotTail, hb, hc, hba, hca]

theorem emailRegexTest_iff {l : List Char} :
    emailRegexTest l = true ↔ EmailPat l := by
  constructor
  · intro h
    obtain ⟨p, hp, hpred⟩ := List.any_eq_true.mp h
    have hl := mem_splits.mp hp
    simp only [Bool.and_eq_true, List.isEmpty_eq_false, Bool.not_eq_true'] at hpred
    obtain ⟨⟨hne, hall⟩, hat⟩ := hpred
    cases hp2 : p.2 with
    | nil => rw [hp2] at hat; simp [atTail] at hat
    | cons x t =>
      rw [hp2] at hat
      simp only [atTail, Bool.and_eq_true, beq_iff_eq] at hat
      obtain ⟨hx, ht⟩ := hat
      obtain ⟨b, c, hbc, hb, hc, hba, hca⟩ := tailTest_iff.mp ht
      refine ⟨p.1, b, c, ?_, hne, hb, hc, hall, hba, hca⟩
      rw [← hl, hp2, hx, hbc]
  · rintro ⟨a, b, c, rfl, ha, hb, hc, haa, hba, hca⟩
    refine List.any_eq_true.mpr ⟨(a, '@' :: (b ++ '.' :: c)), mem_splits.mpr rfl, ?_⟩
    simp only [Bool.and_eq_true, List.isEmpty_eq_false, Bool.not_eq_true', atTail,
      beq_iff_eq]
    exact ⟨⟨ha, haa⟩, trivial, tailTest_iff.mpr ⟨b, c, rfl, hb, hc, hba, hca⟩⟩

theorem dropWhile_atomChar_append {a r : List Char}
    (h : a.all atomChar = true) :
    (a ++ '@' :: r).dropWhile (fun c => !(c == '@')) = '@' :: r := by
  induction a with
  | nil => simp [List.dropWhile]
  | cons x xs ih =>
    simp only [List.all_cons, Bool.and_eq_true] at h
    have hx : (x == '@') = false := by
      have hax := h.1
      unfold atomChar at hax
      simp only [Bool.and_eq_true, Bool.not_eq_true'] at hax
      exact hax.2
    simp [List.dropWhile, hx, ih h.2]

/-! Claim theorems. -/

/-- C6: the name validator fails with Required when the trimmed value is
empty, fails with TooShort when the trimmed length is 1, and succeeds
for every trimmed value of length at least 2. -/
theorem name_validator_spec (v : String) :
    (jsTrim v.data = [] → validateName v = some .Required) ∧
    ((jsTrim v.data).length = 1 → validateName v = some .TooShort) ∧
    (2 ≤ (jsTrim v.data).length → validateName v = none) := by
  refine ⟨fun h => by simp [validateName, h], fun h => ?_, fun h => ?_⟩
  · have hne : jsTrim v.data ≠ [] := by
      intro he; rw [he] at h; simp at h
    simp [validateName, hne, h]
  · have hne : jsTrim v.data ≠ [] := by
      intro he; rw [he] at h; simp at h
    simp only [validateName, if_neg hne]
    rw [if_neg (by omega)]

theorem name_validator_spec_witness :
    validateName "" = some .Required ∧
    validateName " a " = some .TooShort ∧
    validateName "ab" = none :=
  ⟨(name_validator_spec "").1 (by decide),
   (name_validator_spec " a ").2.1 (by decide),
   (name_validator_spec "ab").2.2 (by decide)⟩

/-- C4 counterexample: the claim quantifies over raw input strings, but
the validator trims first: the one-character string consisting of a
single space succeeds (the claim says every string of length 1-19
fails), and a 20-character string made of one letter and 19 spaces
fails with TooShort (the claim says every string of length at least 20
succeeds). -/
theorem cover_claim_counterexample :
    ((" " : String).length = 1 ∧ validateCover " " = none) ∧
    (("a                   " : String).length = 20 ∧
      validateCover "a                   " = some .TooShort) := by
  refine ⟨⟨rfl, by decide⟩, ⟨rfl, by decide⟩⟩

/-- C4 amended: with lengths measured on the trimmed value, the
cover-letter validator succeeds when the trimmed value is empty, fails
with TooShort for trimmed lengths 1-19, and succeeds for trimmed length
at least 20 (in particular exactly 20). -/
theorem cover_trimmed_length_spec (v : String) :
    (jsTrim v.data = [] → validateCover v = none) ∧
    (1 ≤ (jsTrim v.data).length → (jsTrim v.data).length ≤ 19 →
      validateCover v = some .TooShort) ∧
    (20 ≤ (jsTrim v.data).length → validateCover v = none) := by
  refine ⟨fun h => by simp [validateCover, h], fun h1 h2 => ?_, fun h => ?_⟩
  · have hne : jsTrim v.data ≠ [] := by
      intro he; rw [he] at h1; simp at h1
    simp only [validateCover, if_neg hne]
    rw [if_pos (by omega)]
  · have hne : jsTrim v.data ≠ [] := by
      intro he; rw [he] at h; simp at h
    simp only [validateCover, if_neg hne]
    rw [if_neg (by omega)]

theorem cover_trimmed_length_spec_witness :
    validateCover "" = none ∧
    validateCover "short" = some .TooShort ∧
    validateCover "aaaaaaaaaaaaaaaaaaaa" = none :=
  ⟨(cover_trimmed_length_spec "").1 (by decide),
   (cover_trimmed_length_spec "short").2.1 (by decide) (by decide),
   (cover_trimmed_length_spec "aaaaaaaaaaaaaaaaaaaa").2.2 (by decide)⟩

/-- C5: the email validator fails with Required when the trimmed value
is empty, fails with InvalidFormat when the nonempty trimmed value does
not satisfy the structural pattern, succeeds when the trimmed value
satisfies it, and in particular never succeeds when the trimmed value
lacks an at sign, or lacks a dot in the part starting at the first at
sign. -/
theorem email_validator_spec (v : String) :
    (jsTrim v.data = [] → validateEmail v = some .Required) ∧
    (jsTrim v.data ≠ [] → ¬ EmailPat (jsTrim v.data) →
      validateEmail v = some .InvalidFormat) ∧
    (EmailPat (jsTrim v.data) → validateEmail v = none) ∧
    ('@' ∉ jsTrim v.data → validateEmail v ≠ none) ∧
    ('.' ∉ (jsTrim v.data).dropWhile (fun c => !(c == '@')) →
      validateEmail v ≠ none) := by
  refine ⟨fun h => by simp [validateEmail, h], fun h1 h2 => ?_, fun h => ?_,
    fun h => ?_, fun h => ?_⟩
  · have hf : emailRegexTest (jsTrim v.data) = false :=
      Bool.eq_false_iff.mpr fun ht => h2 (emailRegexTest_iff.mp ht)
    simp [validateEmail, h1, hf]
  · obtain ⟨a, b, c, he, ha, hb, hc, haa, hba, hca⟩ := h
    have hne : jsTrim v.data ≠ [] := by
      rw [he]; simp
    have ht : emailRegexTest (jsTrim v.data) = true :=
      emailRegexTest_iff.mpr ⟨a, b, c, he, ha, hb, hc, haa, hba, hca⟩
    simp [validateEmail, hne, ht]
  · by_cases hne : jsTrim v.data = []
    · simp [validateEmail, hne]
    · by_cases ht : emailRegexTest (jsTrim v.data) = true
      · obtain ⟨a, b, c, he, _, _, _, _, _, _⟩ := emailRegexTest_iff.mp ht
        exact absurd (by rw [he]; simp : '@' ∈ jsTrim v.data) h
      · simp [validateEmail, hne, Bool.eq_false_iff.mpr ht]
  · by_cases hne : jsTrim v.data = []
    · simp [validateEmail, hne]
    · by_cases ht : emailRegexTest (jsTrim v.data) = true
      · obtain ⟨a, b, c, he, _, _, _, haa, _, _⟩ := emailRegexTest_iff.mp ht
        have hd : (jsTrim v.data).dropWhile (fun c => !(c == '@')) =
            '@' :: (b ++ '.' :: c) := by
          rw [he]; exact dropWhile_atomChar_append haa
        exact absurd (by rw [hd]; simp : '.' ∈
          (jsTrim v.data).dropWhile (fun c => !(c == '@'))) h
      · simp [validateEmail, hne, Bool.eq_false_iff.mpr ht]

theorem email_validator_spec_witness :
    validateEmail "" = some .Required ∧
    validateEmail "abc" = some .InvalidFormat ∧
    validateEmail "a@b.c" = none ∧
    validateEmail "ab" ≠ none ∧
    validateEmail "a@bc" ≠ none :=
  ⟨(email_validator_spec "").1 (by decide),
   (email_validator_spec "abc").2.1 (by decide)
     (fun hp => by
       have ht := emailRegexTest_iff.mpr hp
       rw [show emailRegexTest (jsTrim "abc".data) = false from by decide] at ht
       exact Bool.false_ne_true ht),
   (email_validator_spec "a@b.c").2.2.1
     (emailRegexTest_iff.mp (by decide)),
   (email_validator_spec "ab").2.2.2.1 (by decide),
   (email_validator_spec "a@bc").2.2.2.2 (by decide)⟩

/-- C7: the portfolio validator succeeds on a trimmed-empty value; on a
nonempty trimmed value it fails with InvalidURL when URL parsing fails,
fails with DisallowedScheme when it parses with a protocol other than
http or https, and succeeds when it parses with protocol http or https. -/
theorem portfolio_validator_spec (v : String) :
    (jsTrim v.data = [] → validatePortfolio v = none) ∧
    (jsTrim v.data ≠ [] → parseURL (String.mk (jsTrim v.data)) = none →
      validatePortfolio v = some .InvalidURL) ∧
    (∀ u, jsTrim v.data ≠ [] →
      parseURL (String.mk (jsTrim v.data)) = some u →
      u.protocol ≠ "http:" → u.protocol ≠ "https:" →
      validatePortfolio v = some .DisallowedScheme) ∧
    (∀ u, jsTrim v.data ≠ [] →
      parseURL (String.mk (jsTrim v.data)) = some u →
      (u.protocol = "http:" ∨ u.protocol = "https:") →
      validatePortfolio v = none) := by
  refine ⟨fun h => by simp [validatePortfolio, h],
    fun h1 h2 => by simp [validatePortfolio, h1, h2],
    fun u h1 h2 h3 h4 => ?_, fun u h1 h2 h3 => ?_⟩
  · simp [validatePortfolio, h1, h2, List.contains]
    exact ⟨h3, h4⟩
  · simp [validatePortfolio, h1, h2, List.contains]
    tauto

theorem portfolio_validator_spec_witness :
    validatePortfolio "" = none ∧
    validatePortfolio "not a url" = some .InvalidURL ∧
    validatePortfolio "ftp://x.com" = some .DisallowedScheme ∧
    validatePortfolio "https://example.com" = none :=
  ⟨(portfolio_validator_spec "").1 (by decide),
   (portfolio_validator_spec "not a url").2.1 (by decide) (by decide),
   (portfolio_validator_spec "ftp://x.com").2.2.1 ⟨"ftp:"⟩
     (by decide) (by decide) (by decide) (by decide),
   (portfolio_validator_spec "https://example.com").2.2.2 ⟨"https:"⟩
     (by decide) (by decide) (Or.inr rfl)⟩

theorem validateResume_some_eq (f : FileDesc) :
    validateResume (some f) =
      if f.size > MAX_FILE_BYTES then ⟨false, some .TooLarge, true⟩
      else if f.type ∈ ALLOWED_MIME ∨ getExt f.name ∈ ALLOWED_EXT then
        ⟨true, none, false⟩
      else ⟨false, some .InvalidType, true⟩ := by
  have hbool : (ALLOWED_MIME.contains f.type ||
      ALLOWED_EXT.contains (getExt f.name)) = true ↔
      (f.type ∈ ALLOWED_MIME ∨ getExt f.name ∈ ALLOWED_EXT) := by
    simp [List.contains]
  simp only [validateResume]
  by_cases hs : f.size > MAX_FILE_BYTES
  · rw [if_pos hs, if_pos hs]
  · rw [if_neg hs, if_neg hs]
    by_cases hm : f.type ∈ ALLOWED_MIME ∨ getExt f.name ∈ ALLOWED_EXT
    · rw [hbool.mpr hm, if_neg (by decide), if_pos hm]
    · rw [Bool.eq_false_iff.mpr (fun ht => hm (hbool.mp ht)),
        if_pos (by decide), if_neg hm]

/-- C2: for every selected resume file of acceptable size, the resume
validator succeeds exactly when the declared content-type is in
ALLOWED_MIME or the lowercased extension after the last dot is in
ALLOWED_EXT, and otherwise reports InvalidType; in particular a file
named resume.PDF with empty content-type succeeds and a file named
resume.txt with content-type text/plain fails with InvalidType. -/
theorem resume_type_union (f : FileDesc) (h : f.size ≤ MAX_FILE_BYTES) :
    ((validateResume (some f)).ok = true ↔
      (f.type ∈ ALLOWED_MIME ∨ getExt f.name ∈ ALLOWED_EXT)) ∧
    ((validateResume (some f)).err = some .InvalidType ↔
      ¬ (f.type ∈ ALLOWED_MIME ∨ getExt f.name ∈ ALLOWED_EXT)) ∧
    validateResume (some ⟨"resume.PDF", f.size, ""⟩) = ⟨true, none, false⟩ ∧
    (validateResume (some ⟨"resume.txt", f.size, "text/plain"⟩)).err =
      some .InvalidType := by
  have hs : ¬ (f.size > MAX_FILE_BYTES) := Nat.not_lt.mpr h
  refine ⟨?_, ?_, ?_, ?_⟩
  · rw [validateResume_some_eq, if_neg hs]
    by_cases hm : f.type ∈ ALLOWED_MIME ∨ getExt f.name ∈ ALLOWED_EXT
    · rw [if_pos hm]; exact iff_of_true rfl hm
    · rw [if_neg hm]; exact iff_of_false (by simp) hm
  · rw [validateResume_some_eq, if_neg hs]
    by_cases hm : f.type ∈ ALLOWED_MIME ∨ getExt f.name ∈ ALLOWED_EXT
    · rw [if_pos hm]; exact iff_of_false (by simp) (not_not_intro hm)
    · rw [if_neg hm]; exact iff_of_true rfl hm
  · rw [validateResume_some_eq,
      if_neg (show ¬ ((⟨"resume.PDF", f.size, ""⟩ : FileDesc).size >
        MAX_FILE_BYTES) from hs),
      if_pos ((Or.inr (show getExt "resume.PDF" ∈ ALLOWED_EXT from by decide)) :
        (⟨"resume.PDF", f.size, ""⟩ : FileDesc).type ∈ ALLOWED_MIME ∨
        getExt (⟨"resume.PDF", f.size, ""⟩ : FileDesc).name ∈ ALLOWED_EXT)]
  · rw [validateResume_some_eq,
      if_neg (show ¬ ((⟨"resume.txt", f.size, "text/plain"⟩ : FileDesc).size >
        MAX_FILE_BYTES) from hs),
      if_neg ((show ¬ (("text/plain" ∈ ALLOWED_MIME) ∨
          getExt "resume.txt" ∈ ALLOWED_EXT) from by decide) :
        ¬ ((⟨"resume.txt", f.size, "text/plain"⟩ : FileDesc).type ∈ ALLOWED_MIME ∨
          getExt (⟨"resume.txt", f.size, "text/plain"⟩ : FileDesc).name ∈
            ALLOWED_EXT))]

theorem resume_type_union_witness :
    validateResume (some ⟨"resume.PDF", 1000, ""⟩) = ⟨true, none, false⟩ ∧
    (validateResume (some ⟨"resume.txt", 1000, "text/plain"⟩)).err =
      some .InvalidType :=
  ⟨(resume_type_union ⟨"x", 1000, ""⟩ (by decide)).2.2.1,
   (resume_type_union ⟨"x", 1000, ""⟩ (by decide)).2.2.2⟩

/-- C3: the size check is a strict comparison against 2097152 bytes: a
file of an allowed type of exactly 2097152 bytes passes, and any file of
2097153 bytes or more fails with TooLarge. -/
theorem resume_size_boundary :
    (∀ f : FileDesc,
      (f.type ∈ ALLOWED_MIME ∨ getExt f.name ∈ ALLOWED_EXT) →
      f.size = 2097152 → validateResume (some f) = ⟨true, none, false⟩) ∧
    (∀ f : FileDesc, 2097153 ≤ f.size →
      (validateResume (some f)).err = some .TooLarge) := by
  constructor
  · intro f ha hsz
    have hs : ¬ (f.size > MAX_FILE_BYTES) := by
      rw [hsz]; decide
    rw [validateResume_some_eq, if_neg hs, if_pos ha]
  · intro f hsz
    have hs : f.size > MAX_FILE_BYTES := by
      unfold MAX_FILE_BYTES; omega
    rw [validateResume_some_eq, if_pos hs]

theorem resume_size_boundary_witness :
    validateResume (some ⟨"r.pdf", 2097152, "application/pdf"⟩) =
      ⟨true, none, false⟩ ∧
    (validateResume (some ⟨"r.pdf", 2097153, "application/pdf"⟩)).err =
      some .TooLarge :=
  ⟨resume_size_boundary.1 ⟨"r.pdf", 2097152, "application/pdf"⟩
     (Or.inl (by decide)) rfl,
   resume_size_boundary.2 ⟨"r.pdf", 2097153, "application/pdf"⟩ (by decide)⟩

/-- C10: in the resume validator the required check precedes the size
check, which precedes the type check: with no file selected the error is
Required; any oversized file reports TooLarge regardless of its
content-type or extension; and every failing run hides the file
preview. -/
theorem resume_check_order_and_preview :
    (validateResume none).err = some .Required ∧
    (∀ f : FileDesc, f.size > MAX_FILE_BYTES →
      (validateResume (some f)).err = some .TooLarge) ∧
    (∀ files : Option FileDesc, (validateResume files).ok = false →
      (validateResume files).previewHidden = true) := by
  refine ⟨rfl, fun f hs => by rw [validateResume_some_eq, if_pos hs], ?_⟩
  intro files hok
  cases files with
  | none => rfl
  | some f =>
    rw [validateResume_some_eq] at hok ⊢
    by_cases hs : f.size > MAX_FILE_BYTES
    · rw [if_pos hs]
    · rw [if_neg hs] at hok ⊢
      by_cases hm : f.type ∈ ALLOWED_MIME ∨ getExt f.name ∈ ALLOWED_EXT
      · rw [if_pos hm] at hok
        exact absurd hok (by decide)
      · rw [if_neg hm]

theorem resume_check_order_and_preview_witness :
    (validateResume (some ⟨"huge.txt", 3000000, "text/plain"⟩)).err =
      some .TooLarge ∧
    (validateResume (some ⟨"resume.txt", 10, "text/plain"⟩)).previewHidden =
      true :=
  ⟨resume_check_order_and_preview.2.1 ⟨"huge.txt", 3000000, "text/plain"⟩
     (by decide),
   resume_check_order_and_preview.2.2 (some ⟨"resume.txt", 10, "text/plain"⟩)
     (by decide)⟩

/-- C1: on a submit attempt with at least one invalid field, every
field's error slot is set to its own validator's result (no validator
is skipped), the aggregate is the logical AND of the five results, the
submit control is re-enabled with its original label, the aggregate
failure status is shown in the danger color, and no delayed completion
is scheduled. -/
theorem submit_failure_runs_all_validators (fs : FormFields)
    (h : allOk fs = false) :
    (submitHandler fs).errName = validateName fs.fullName ∧
    (submitHandler fs).errEmail = validateEmail fs.email ∧
    (submitHandler fs).errCover = validateCover fs.cover ∧
    (submitHandler fs).errPortfolio = validatePortfolio fs.portfolio ∧
    (submitHandler fs).resumeOutcome = validateResume fs.resumeFiles ∧
    allOk fs = ((validateName fs.fullName).isNone &&
      (validateEmail fs.email).isNone &&
      (validateCover fs.cover).isNone &&
      (validatePortfolio fs.portfolio).isNone &&
      (validateResume fs.resumeFiles).ok) ∧
    (submitHandler fs).submitDisabled = false ∧
    (submitHandler fs).submitLabel = "Submit application" ∧
    (submitHandler fs).statusText = "Please fix the highlighted errors." ∧
    (submitHandler fs).statusColor = .danger ∧
    (submitHandler fs).scheduledDelay = none := by
  refine ⟨?_, ?_, ?_, ?_, ?_, rfl, ?_, ?_, ?_, ?_, ?_⟩ <;>
    simp [submitHandler, h]

theorem submit_failure_runs_all_validators_witness :
    (submitHandler ⟨"", "", "", "", none⟩).errName = some .Required ∧
    (submitHandler ⟨"", "", "", "", none⟩).submitDisabled = false ∧
    (submitHandler ⟨"", "", "", "", none⟩).scheduledDelay = none := by
  have t := submit_failure_runs_all_validators ⟨"", "", "", "", none⟩
    (by decide)
  exact ⟨by rw [t.1]; decide, t.2.2.2.2.2.2.1, t.2.2.2.2.2.2.2.2.2.2⟩

/-- C8: on a submit attempt with all five validators succeeding, a
single 800-unit delayed completion is scheduled while the submit
control stays disabled with the in-progress label, and the completion
re-enables the control, restores its label, shows the success status,
resets all fields (dropping the file selection) and hides the file
preview. -/
theorem submit_success_schedules_delay (fs : FormFields)
    (h : allOk fs = true) :
    (submitHandler fs).scheduledDelay = some 800 ∧
    (submitHandler fs).submitDisabled = true ∧
    (submitHandler fs).submitLabel = "Checking..." ∧
    timeoutCallback.submitDisabled = false ∧
    timeoutCallback.submitLabel = "Submit application" ∧
    timeoutCallback.statusText = "Application submitted successfully ✅" ∧
    timeoutCallback.statusColor = .success ∧
    timeoutCallback.fields = ⟨"", "", "", "", none⟩ ∧
    timeoutCallback.previewHidden = true := by
  refine ⟨?_, ?_, ?_, ?_, ?_, ?_, ?_, ?_, ?_⟩ <;>
    simp [submitHandler, h, timeoutCallback]

theorem submit_success_schedules_delay_witness :
    (submitHandler ⟨"Jo", "a@b.c", "", "",
      some ⟨"r.pdf", 10, ""⟩⟩).scheduledDelay = some 800 ∧
    (submitHandler ⟨"Jo", "a@b.c", "", "",
      some ⟨"r.pdf", 10, ""⟩⟩).submitDisabled = true := by
  have t := submit_success_schedules_delay
    ⟨"Jo", "a@b.c", "", "", some ⟨"r.pdf", 10, ""⟩⟩ (by decide)
  exact ⟨t.1, t.2.1⟩

/-- C9: the dirty flag starts false, any form input event sets it, no
other in-page event (resume change, clear-file click, submit, the
success timeout with its form reset) ever clears it once set, and the
beforeunload handler requests the confirmation prompt exactly when the
flag holds. -/
theorem dirty_flag_spec :
    isDirtyInit = false ∧
    (∀ d, dirtyStep d .inputEvt = true) ∧
    (∀ e, dirtyStep true e = true) ∧
    (∀ d, beforeunloadPrevents d = d) := by
  refine ⟨rfl, fun d => rfl, fun e => ?_, fun d => rfl⟩
  cases e <;> rfl

end JobForm
